import Mathlib

/-!
Shallow embedding of the `get_holiday` CLI tool (src/main.rs): a holiday
lookup utility with a single-day JSON cache keyed by (country code, date).

The filesystem-backed cache file is modelled by the `CacheFile` type: the
file is either absent, present but unparseable as a `FullCache`, or parses
to a `FullCache` value.  Each cache operation of the program becomes a pure
function on this state; the printed output lines are returned explicitly as
a list of strings.  Dates (`chrono::NaiveDate`) are modelled by a record of
year/month/day with lexicographic comparison, `%Y-%m-%d` formatting and
parsing.
-/

/-- A single apostrophe character, used in the invalid-country-code message. -/
def quoteChar : String := String.singleton (Char.ofNat 39)

/-- Mirrors `struct Holiday` (main.rs lines 14-20): date string, name,
optional counties list, types list. -/
structure Holiday where
  date : String
  name : String
  counties : Option (List String)
  types : List String
deriving Repr, DecidableEq

/-- Mirrors `struct CachedData` (main.rs lines 22-27): the fetch
result for one country. -/
structure CachedData where
  country_code : String
  date : String
  holidays : List Holiday
deriving Repr, DecidableEq

/-- Mirrors `struct FullCache` (main.rs lines 29-33): the persisted cache,
a reset date plus the list of per-country entries. -/
structure FullCache where
  date : String
  data : List CachedData
deriving Repr, DecidableEq

/-- State of the cache file on disk: absent (read fails), present but not
parseable as `FullCache` (serde parse fails), or parseable to a value. -/
inductive CacheFile where
  | absent : CacheFile
  | corrupt : CacheFile
  | valid : FullCache → CacheFile
deriving Repr, DecidableEq

/-- Model of `chrono::NaiveDate`: proleptic Gregorian calendar date. -/
structure NaiveDate where
  year : Int
  month : Nat
  day : Nat
deriving Repr, DecidableEq

/-- Date comparison, lexicographic on (year, month, day), as `chrono`
derives `Ord` for `NaiveDate`. -/
def NaiveDate.blt (a b : NaiveDate) : Bool :=
  a.year < b.year ||
    (a.year = b.year && (a.month < b.month ||
      (a.month = b.month && a.day < b.day)))

instance : LT NaiveDate := ⟨fun a b => NaiveDate.blt a b = true⟩

instance (a b : NaiveDate) : Decidable (a < b) :=
  inferInstanceAs (Decidable (NaiveDate.blt a b = true))

/-- Left-pad the decimal representation of `n` with zeros to width `w`. -/
def padZeros (w : Nat) (n : Nat) : String :=
  let s := Nat.repr n
  if s.length < w then String.mk (List.replicate (w - s.length) (Char.ofNat 48)) ++ s
  else s

/-- Model of `NaiveDate::to_string`: chrono formats a date as `%Y-%m-%d`
(zero-padded year to 4 digits, month and day to 2). -/
def NaiveDate.toString (d : NaiveDate) : String :=
  (if d.year < 0 then "-" ++ padZeros 4 (-d.year).toNat else padZeros 4 d.year.toNat)
    ++ "-" ++ padZeros 2 d.month ++ "-" ++ padZeros 2 d.day

/-- Parse a decimal natural number; `none` if the string is empty or has a
non-digit. -/
def parseNatDigits (s : String) : Option Nat :=
  if s.length > 0 && s.all Char.isDigit then
    some (s.foldl (fun n c => n * 10 + (c.toNat - 48)) 0)
  else none

/-- Gregorian leap-year test. -/
def isLeapYear (y : Nat) : Bool :=
  y % 4 = 0 && (y % 100 ≠ 0 || y % 400 = 0)

/-- Number of days in a month of the Gregorian calendar. -/
def daysInMonth (y m : Nat) : Nat :=
  if m = 2 then (if isLeapYear y then 29 else 28)
  else if m = 4 || m = 6 || m = 9 || m = 11 then 30
  else 31

/-- Model of `NaiveDate::parse_from_str(s, "%Y-%m-%d")` for non-negative
years: three dash-separated decimal fields that form a valid calendar
date. -/
def parseDate (s : String) : Option NaiveDate :=
  match s.splitOn "-" with
  | [y, m, d] =>
    match parseNatDigits y, parseNatDigits m, parseNatDigits d with
    | some yn, some mn, some dn =>
      if 1 ≤ mn && mn ≤ 12 && 1 ≤ dn && dn ≤ daysInMonth yn mn then
        some ⟨(yn : Int), mn, dn⟩
      else none
    | _, _, _ => none
  | _ => none

/-- Mirrors `check_cache` (main.rs lines 103-119).  Reads the cache file;
on parse/read failure warns and misses; otherwise linearly searches the
data list for the first entry matching the country code and the current date.
Returns the lookup result, the cache file after the call (the function
only reads, so each branch returns the input file), and the warnings
printed. -/
def check_cache (country_code : String) (today : NaiveDate) (file : CacheFile) :
    Option CachedData × CacheFile × List String :=
  match file with
  | .valid full_cache =>
    (full_cache.data.find? (fun data =>
        data.country_code == country_code && data.date == today.toString),
      file, [])
  | .corrupt =>
    (none, file, ["Warning: Cache file exists but could not be parsed. Ignoring cache."])
  | .absent =>
    (none, file, ["Warning: Cache file could not be opened or does not exist. Proceeding with API request."])

/-- Mirrors `write_cache` (main.rs lines 150-191).  Re-reads the current
cache (initialising a fresh empty `FullCache` dated today if the file is
unreadable or unparseable); if an entry for (country_code, today) already
exists, skips the write and reports "already cached"; otherwise appends a
new entry and writes the whole cache back.  Returns the cache file after
the call and the lines printed. -/
def write_cache (country_code : String) (today : NaiveDate) (holidays : List Holiday)
    (file : CacheFile) : CacheFile × List String :=
  let full_cache : FullCache :=
    match file with
    | .valid fc => fc
    | .corrupt => { date := today.toString, data := [] }
    | .absent => { date := today.toString, data := [] }
  if full_cache.data.any (fun data =>
      data.country_code == country_code && data.date == today.toString) then
    (file, ["Cache already contains data for " ++ country_code ++ " on " ++ today.toString ++ "."])
  else
    let new_cached_data : CachedData :=
      { country_code := country_code, date := today.toString, holidays := holidays }
    (.valid { full_cache with data := full_cache.data ++ [new_cached_data] },
      ["Cache updated successfully for " ++ country_code ++ "."])

/-- Mirrors `reset_cache_if_needed` (main.rs lines 193-225).  If the file
parses and its stored date differs from today, overwrites it with a fresh
empty cache dated today; if the file is absent, creates a fresh empty
cache; if the file exists but does not parse, does nothing. -/
def reset_cache_if_needed (today : NaiveDate) (file : CacheFile) : CacheFile :=
  match file with
  | .valid full_cache =>
    if full_cache.date ≠ today.toString then
      .valid { date := today.toString, data := [] }
    else file
  | .corrupt => file
  | .absent => .valid { date := today.toString, data := [] }

/-- The filter applied by `print_holidays` (main.rs lines 124-128): keep a
holiday when its date string parses and the parsed date is strictly after
today; a parse failure keeps the default `false`. -/
def upcomingFilter (today : NaiveDate) (holiday : Holiday) : Bool :=
  ((parseDate holiday.date).map (fun date => NaiveDate.blt today date)).getD false

/-- The holidays selected by `print_holidays` (main.rs lines 122-130):
filter to strictly-future holidays, then take the first 5. -/
def filteredHolidays (holidays : List Holiday) (today : NaiveDate) : List Holiday :=
  (holidays.filter (upcomingFilter today)).take 5

/-- The types column of a printed line (main.rs lines 141-145): a
single-element types list is unwrapped, otherwise the list is
comma-joined. -/
def typesString (ts : List String) : String :=
  if ts.length = 1 then ts.getD 0 "" else String.intercalate ", " ts

/-- One output line of `print_holidays` (main.rs lines 133-146). -/
def holidayLine (h : Holiday) : String :=
  "Date: " ++ h.date ++ ", Name: " ++ h.name ++ ", Counties: " ++
    (match h.counties with
     | some counties => String.intercalate ", " counties
     | none => "National") ++
    ", Types: " ++ typesString h.types

/-- Mirrors `print_holidays` (main.rs lines 121-148): the list of lines
printed. -/
def print_holidays (holidays : List Holiday) (today : NaiveDate) : List String :=
  (filteredHolidays holidays today).map holidayLine

/-- The error message chosen by `handle_http_error` (main.rs lines
227-246) for a given HTTP status code. -/
def httpErrorMessage (status : Nat) : String :=
  if status = 400 then "Error: Bad Request."
  else if status = 404 then "Error: Not Found."
  else if status = 500 then "Error: Internal Server Error."
  else if status = 503 then "Error: Service Unavailable."
  else "Error: Unexpected HTTP status: " ++ Nat.repr status

/-- Transport-level failure kinds of the HTTP client (`err.is_connect()`,
`err.is_timeout()`, anything else). -/
inductive TransportError where
  | connect : TransportError
  | timeout : TransportError
  | other : TransportError
deriving Repr, DecidableEq

/-- The error message printed for a transport failure (main.rs lines
78-87). -/
def transportMessage : TransportError → String
  | .connect => "Network error: Unable to connect to the API. Please check your internet connection."
  | .timeout => "Request timed out: Please try again later."
  | .other => "Unexpected error occurred while connecting to the API."

/-- Outcome of the single `reqwest::get` call: a response carrying a
status code and (for 2xx) a deserialised holiday list, or a transport
error. -/
inductive HttpResult where
  | response : Nat → List Holiday → HttpResult
  | transport : TransportError → HttpResult
deriving Repr, DecidableEq

/-- Model of the Rust method `String::to_uppercase` (main.rs line 41): upper-case
every character. -/
def toUpperStr (s : String) : String := String.mk (s.data.map Char.toUpper)

/-- The Rust debug rendering of the list of valid country
codes, as printed in the invalid-code error message. -/
def codesRepr (codes : List String) : String :=
  "[" ++ String.intercalate ", " (codes.map (fun c => "\"" ++ c ++ "\"")) ++ "]"

/-- The error message printed for an unrecognised country code (main.rs
lines 46-49); it lists the valid codes. -/
def invalidCodeMessage (country_code : String) (codes : List String) : String :=
  "Error: " ++ quoteChar ++ country_code ++ quoteChar ++
    " is not a valid country code. Valid country codes are: " ++ codesRepr codes

/-- Mirrors the control flow of `main` (main.rs lines 39-91) after the
country-codes file has been read: upper-case the argument and validate it
(exit 1 on failure), reset the cache if stale, look up the cache (hit:
print and exit 0), otherwise consult the HTTP result: 2xx writes the cache
and prints (exit 0); non-2xx and transport errors print a classified
message and exit 1.  Returns the exit code, the final cache file state and
the printed lines. -/
def mainRun (argCountry : String) (codes : List String) (today : NaiveDate)
    (http : HttpResult) (file : CacheFile) : Nat × CacheFile × List String :=
  let country_code := toUpperStr argCountry
  if codes.contains country_code then
    let file1 := reset_cache_if_needed today file
    let r := check_cache country_code today file1
    match r.1 with
    | some cached_data =>
      (0, r.2.1,
        r.2.2 ++ ("Using cached data for " ++ country_code ++ " (Date: " ++ today.toString ++ ").")
          :: print_holidays cached_data.holidays today)
    | none =>
      match http with
      | .response status holidays =>
        if 200 ≤ status ∧ status ≤ 299 then
          let w := write_cache country_code today holidays r.2.1
          (0, w.1, r.2.2 ++ w.2 ++ print_holidays holidays today)
        else
          (1, r.2.1, r.2.2 ++ [httpErrorMessage status])
      | .transport e =>
        (1, r.2.1, r.2.2 ++ [transportMessage e])
  else
    (1, file, [invalidCodeMessage country_code codes])

/-- Outcome of the country-code validation step of `main` (main.rs lines
41-51): the accepted upper-cased code, or the exit code and error message
on failure. -/
inductive ValidationOutcome where
  | ok : String → ValidationOutcome
  | invalid : Nat → String → ValidationOutcome
deriving Repr, DecidableEq

/-- The validation step of `main` (main.rs lines 41-51): upper-case the
argument and check membership in the recognised-codes list. -/
def validateCountry (argCountry : String) (codes : List String) : ValidationOutcome :=
  let country_code := toUpperStr argCountry
  if codes.contains country_code then .ok country_code
  else .invalid 1 (invalidCodeMessage country_code codes)

/-- Classification of an HTTP status code into the match arms of
`handle_http_error` (main.rs lines 228-244). -/
inductive HttpStatusClass where
  | c400 : HttpStatusClass
  | c404 : HttpStatusClass
  | c500 : HttpStatusClass
  | c503 : HttpStatusClass
  | other : HttpStatusClass
deriving Repr, DecidableEq

/-- The match arm of `handle_http_error` a status code falls into. -/
def httpStatusClass (status : Nat) : HttpStatusClass :=
  if status = 400 then .c400
  else if status = 404 then .c404
  else if status = 500 then .c500
  else if status = 503 then .c503
  else .other

/-- Cache-state invariant of the data model: at most one
`CachedData` entry per (country_code, date) pair. -/
def cacheInv (file : CacheFile) : Prop :=
  match file with
  | .valid fc =>
    fc.data.Pairwise (fun a b => ¬(a.country_code = b.country_code ∧ a.date = b.date))
  | _ => True

/-! Helper lemmas shared by the claim theorems. -/

/-- The lookup `check_cache` returns the cache file unchanged in every
branch. -/
theorem check_cache_file_unchanged (cc : String) (today : NaiveDate) (file : CacheFile) :
    (check_cache cc today file).2.1 = file := by
  cases file <;> rfl

/-- The "unexpected status" message is longer than any of the four fixed
messages, hence distinct from any string of length below 31. -/
theorem unexpectedMessage_ne (x : String) (m : String) (hm : m.length < 31) :
    "Error: Unexpected HTTP status: " ++ x ≠ m := by
  intro h
  have hl := congrArg String.length h
  rw [String.length_append] at hl
  have h31 : ("Error: Unexpected HTTP status: " : String).length = 31 := rfl
  omega

/-! Claim theorems. -/

/-- Claim C2: `reset_cache_if_needed(today)` overwrites a parseable cache
whose stored date differs from today with a fresh empty cache dated today;
creates a fresh empty cache when the file is absent; and leaves an
unparseable file untouched (treated as absent for this step, reset
silently skipped). -/
theorem reset_cache_if_needed_spec (today : NaiveDate) (fc : FullCache) :
    (reset_cache_if_needed today (.valid fc) =
      if fc.date = today.toString then .valid fc
      else .valid { date := today.toString, data := [] }) ∧
    reset_cache_if_needed today .absent = .valid { date := today.toString, data := [] } ∧
    reset_cache_if_needed today .corrupt = .corrupt := by
  refine ⟨?_, rfl, rfl⟩
  unfold reset_cache_if_needed
  by_cases h : fc.date = today.toString <;> simp [h]

/-- Claim C4: when the parsed cache already contains an entry for
(country_code, today), `write_cache` is an idempotent no-op: it reports
"already cached", leaves the cache file (hence the data list and its
length) unchanged, and appends nothing. -/
theorem write_cache_idempotent (cc : String) (today : NaiveDate) (hs : List Holiday)
    (fc : FullCache)
    (hmem : ∃ d ∈ fc.data, d.country_code = cc ∧ d.date = today.toString) :
    write_cache cc today hs (.valid fc) =
      (.valid fc,
        ["Cache already contains data for " ++ cc ++ " on " ++ today.toString ++ "."]) := by
  unfold write_cache
  have hany : fc.data.any (fun data =>
      data.country_code == cc && data.date == today.toString) = true := by
    rw [List.any_eq_true]
    obtain ⟨d, hd, h1, h2⟩ := hmem
    exact ⟨d, hd, by simp [h1, h2]⟩
  simp [hany]

/-- Claim C6: when the parsed cache has no entry for (country_code,
today), `write_cache` appends exactly one new entry for (country_code,
today, holidays) at the end, preserving every prior entry in order, and
the whole resulting `FullCache` becomes the new file content (full
overwrite). -/
theorem write_cache_appends (cc : String) (today : NaiveDate) (hs : List Holiday)
    (fc : FullCache)
    (hnone : ∀ d ∈ fc.data, ¬(d.country_code = cc ∧ d.date = today.toString)) :
    write_cache cc today hs (.valid fc) =
      (.valid { date := fc.date,
                data := fc.data ++ [{ country_code := cc, date := today.toString, holidays := hs }] },
        ["Cache updated successfully for " ++ cc ++ "."]) := by
  unfold write_cache
  have hany : fc.data.any (fun data =>
      data.country_code == cc && data.date == today.toString) = false := by
    rw [List.any_eq_false]
    intro d hd
    simp only [Bool.and_eq_true, beq_iff_eq]
    exact fun hc => hnone d hd hc
  simp [hany]

/-- Claim C10: for a non-empty types list, the single-element special case
printed by the presenter coincides with the general comma-join, so the two
formatting branches are equivalent. -/
theorem typesString_eq_join (ts : List String) (h : ts ≠ []) :
    typesString ts = String.intercalate ", " ts := by
  cases ts with
  | nil => exact absurd rfl h
  | cons a tl =>
    cases tl with
    | nil => rfl
    | cons b tl2 =>
      unfold typesString
      simp

/-- Concrete instance of `typesString_eq_join`. -/
theorem typesString_eq_join_witness :
    (["a", "b"] : List String) ≠ [] ∧
      typesString ["a", "b"] = String.intercalate ", " ["a", "b"] :=
  ⟨by decide, typesString_eq_join ["a", "b"] (by decide)⟩

/-- Concrete instance of `write_cache_idempotent`. -/
theorem write_cache_idempotent_witness :
    write_cache "TR" ⟨2024, 5, 1⟩ [] (.valid ⟨"2024-05-01", [⟨"TR", "2024-05-01", []⟩]⟩) =
      (.valid ⟨"2024-05-01", [⟨"TR", "2024-05-01", []⟩]⟩,
        ["Cache already contains data for " ++ "TR" ++ " on " ++
          NaiveDate.toString ⟨2024, 5, 1⟩ ++ "."]) :=
  write_cache_idempotent "TR" ⟨2024, 5, 1⟩ [] ⟨"2024-05-01", [⟨"TR", "2024-05-01", []⟩]⟩
    (by decide)

/-- Claim C1: after a write that actually stores the fetched holidays (the
cache missed for (country_code, today), as in the fetch path of the program), a
subsequent lookup for the same (country_code, today) returns the cached
entry whose holidays field is exactly the list written. -/
theorem write_then_check_roundtrip (cc : String) (today : NaiveDate) (hs : List Holiday)
    (file : CacheFile)
    (hmiss : (check_cache cc today file).1 = none) :
    (check_cache cc today ((write_cache cc today hs file).1)).1 =
      some { country_code := cc, date := today.toString, holidays := hs } := by
  cases file with
  | absent => simp [check_cache, write_cache]
  | corrupt => simp [check_cache, write_cache]
  | valid fc =>
    have hnone : fc.data.find? (fun data =>
        data.country_code == cc && data.date == today.toString) = none := hmiss
    have hany : fc.data.any (fun data =>
        data.country_code == cc && data.date == today.toString) = false := by
      rw [List.any_eq_false]
      intro d hd
      simpa using List.find?_eq_none.mp hnone d hd
    simp [check_cache, write_cache, hany, List.find?_append, hnone]

/-- Concrete instance of `write_then_check_roundtrip`. -/
theorem write_then_check_roundtrip_witness :
    (check_cache "TR" ⟨2024, 5, 1⟩ .absent).1 = none ∧
      (check_cache "TR" ⟨2024, 5, 1⟩ ((write_cache "TR" ⟨2024, 5, 1⟩ [] .absent).1)).1 =
        some { country_code := "TR", date := NaiveDate.toString ⟨2024, 5, 1⟩, holidays := [] } :=
  ⟨by decide, write_then_check_roundtrip "TR" ⟨2024, 5, 1⟩ [] .absent (by decide)⟩

/-- Claim C3: the presenter keeps only holidays whose date string parses
to a date strictly after today (parse failures are excluded), keeps them
in their original relative order (the selection is a sublist of the input
and a prefix of the filtered list), and outputs at most the first 5 of
them; the printed lines are exactly one line per selected holiday. -/
theorem print_holidays_spec (hs : List Holiday) (today : NaiveDate) :
    (filteredHolidays hs today).length ≤ 5 ∧
    (filteredHolidays hs today).length = min 5 (hs.filter (upcomingFilter today)).length ∧
    (∃ rest, hs.filter (upcomingFilter today) = filteredHolidays hs today ++ rest) ∧
    (filteredHolidays hs today).Sublist hs ∧
    (∀ h ∈ filteredHolidays hs today, ∃ d, parseDate h.date = some d ∧ today < d) ∧
    print_holidays hs today = (filteredHolidays hs today).map holidayLine := by
  refine ⟨?_, ?_, ?_, ?_, ?_, rfl⟩
  · simp only [filteredHolidays, List.length_take]
    omega
  · simp [filteredHolidays, List.length_take]
  · exact ⟨(hs.filter (upcomingFilter today)).drop 5, (List.take_append_drop 5 _).symm⟩
  · exact (List.take_sublist 5 _).trans (List.filter_sublist _)
  · intro h hmem
    have hmem2 : h ∈ hs.filter (upcomingFilter today) := List.mem_of_mem_take hmem
    have hf : upcomingFilter today h = true := (List.mem_filter.mp hmem2).2
    unfold upcomingFilter at hf
    cases hp : parseDate h.date with
    | none => rw [hp] at hf; simp at hf
    | some d =>
      rw [hp] at hf
      simp at hf
      exact ⟨d, rfl, hf⟩

/-- Concrete instance of `print_holidays_spec`. -/
theorem print_holidays_spec_witness :
    (filteredHolidays [⟨"2024-06-01", "X", none, ["Public"]⟩] ⟨2024, 5, 1⟩).length ≤ 5 :=
  (print_holidays_spec [⟨"2024-06-01", "X", none, ["Public"]⟩] ⟨2024, 5, 1⟩).1

/-- Claim C5: the (country_code, date)-uniqueness invariant of the cache
is preserved by every operation: reset yields an empty or unchanged data
list, lookup does not change the file, and write appends only when no
entry for (country_code, today) exists. -/
theorem cache_ops_preserve_inv (cc : String) (today : NaiveDate) (hs : List Holiday)
    (file : CacheFile) (hinv : cacheInv file) :
    cacheInv (reset_cache_if_needed today file) ∧
    cacheInv ((check_cache cc today file).2.1) ∧
    cacheInv ((write_cache cc today hs file).1) := by
  refine ⟨?_, ?_, ?_⟩
  · cases file with
    | absent => simp [reset_cache_if_needed, cacheInv]
    | corrupt => exact hinv
    | valid fc =>
      unfold reset_cache_if_needed
      by_cases h : fc.date = today.toString
      · simpa [h] using hinv
      · simp [h, cacheInv]
  · rw [check_cache_file_unchanged]
    exact hinv
  · cases file with
    | absent => simp [write_cache, cacheInv]
    | corrupt => simp [write_cache, cacheInv]
    | valid fc =>
      unfold write_cache
      cases hany : fc.data.any (fun data =>
          data.country_code == cc && data.date == today.toString) with
      | true =>
        simpa [hany] using hinv
      | false =>
        simp only [hany, Bool.false_eq_true, if_false]
        refine List.pairwise_append.mpr ⟨hinv, List.pairwise_singleton _ _, ?_⟩
        intro a ha b hb
        rw [List.mem_singleton] at hb
        subst hb
        have hfa := List.any_eq_false.mp hany a ha
        simp only [Bool.and_eq_true, beq_iff_eq] at hfa
        exact fun hcontra => hfa hcontra

/-- Concrete instance of `cache_ops_preserve_inv`. -/
theorem cache_ops_preserve_inv_witness :
    cacheInv (reset_cache_if_needed ⟨2024, 5, 1⟩ .absent) ∧
    cacheInv ((check_cache "TR" ⟨2024, 5, 1⟩ .absent).2.1) ∧
    cacheInv ((write_cache "TR" ⟨2024, 5, 1⟩ [] .absent).1) :=
  cache_ops_preserve_inv "TR" ⟨2024, 5, 1⟩ [] .absent trivial

/-- Claim C7: `check_cache` never changes the cache file; on an
unparseable file it warns and misses; on a parseable file it returns the
first entry (in insertion order) matching both the country code and
the current date, and a `none` result means no entry matches. -/
theorem check_cache_spec (cc : String) (today : NaiveDate) (fc : FullCache) :
    (∀ file, (check_cache cc today file).2.1 = file) ∧
    check_cache cc today .corrupt =
      (none, .corrupt, ["Warning: Cache file exists but could not be parsed. Ignoring cache."]) ∧
    (∀ cd, (check_cache cc today (.valid fc)).1 = some cd →
      cd.country_code = cc ∧ cd.date = today.toString ∧
      ∃ l1 l2, fc.data = l1 ++ cd :: l2 ∧
        ∀ d ∈ l1, ¬(d.country_code = cc ∧ d.date = today.toString)) ∧
    ((check_cache cc today (.valid fc)).1 = none →
      ∀ d ∈ fc.data, ¬(d.country_code = cc ∧ d.date = today.toString)) := by
  refine ⟨check_cache_file_unchanged cc today, rfl, ?_, ?_⟩
  · intro cd hcd
    have hcd2 : fc.data.find? (fun data =>
        data.country_code == cc && data.date == today.toString) = some cd := hcd
    obtain ⟨hpb, l1, l2, hsplit, hprev⟩ := List.find?_eq_some.mp hcd2
    simp only [Bool.and_eq_true, beq_iff_eq] at hpb
    refine ⟨hpb.1, hpb.2, l1, l2, hsplit, ?_⟩
    intro d hd hc
    rcases (show ¬d.country_code = cc ∨ ¬d.date = today.toString by
        simpa using hprev d hd) with h | h
    · exact h hc.1
    · exact h hc.2
  · intro hnone d hd
    have hnone2 : fc.data.find? (fun data =>
        data.country_code == cc && data.date == today.toString) = none := hnone
    simpa using List.find?_eq_none.mp hnone2 d hd

/-- Concrete instance of `check_cache_spec`. -/
theorem check_cache_spec_witness :
    check_cache "TR" ⟨2024, 5, 1⟩ .corrupt =
      (none, .corrupt, ["Warning: Cache file exists but could not be parsed. Ignoring cache."]) :=
  (check_cache_spec "TR" ⟨2024, 5, 1⟩ ⟨"2024-05-01", []⟩).2.1

/-- Claim C8: when the upper-cased argument is not in the recognised-codes
list, validation fails, the program exits with code 1, prints the message
listing the valid codes, and the cache file is left untouched; when it is
in the list, validation succeeds with no side effects. -/
theorem country_code_validation_spec (arg : String) (codes : List String)
    (today : NaiveDate) (http : HttpResult) (file : CacheFile) :
    (codes.contains (toUpperStr arg) = false →
      validateCountry arg codes = .invalid 1 (invalidCodeMessage (toUpperStr arg) codes) ∧
      mainRun arg codes today http file =
        (1, file, [invalidCodeMessage (toUpperStr arg) codes])) ∧
    (codes.contains (toUpperStr arg) = true →
      validateCountry arg codes = .ok (toUpperStr arg)) := by
  constructor
  · intro h
    have h2 : toUpperStr arg ∉ codes := by simpa using h
    constructor
    · unfold validateCountry
      simp [h2]
    · unfold mainRun
      simp [h2]
  · intro h
    have h2 : toUpperStr arg ∈ codes := by simpa using h
    unfold validateCountry
    simp [h2]

/-- Concrete instance of `country_code_validation_spec`. -/
theorem country_code_validation_spec_witness :
    mainRun "zz" ["TR"] ⟨2024, 5, 1⟩ (.transport .connect) .absent =
      (1, .absent, [invalidCodeMessage (toUpperStr "zz") ["TR"]]) :=
  ((country_code_validation_spec "zz" ["TR"] ⟨2024, 5, 1⟩
      (.transport .connect) .absent).1 (by decide)).2

/-- Claim C9: on a cache miss followed by a non-2xx HTTP response, the
program exits with code 1, performs no cache write (the cache file stays
exactly as the independent reset step left it), and prints the message
`handle_http_error` selects for the status; the classification
{400, 404, 500, 503, other} yields a distinct message for each class. -/
theorem http_error_spec (arg : String) (codes : List String) (today : NaiveDate)
    (status : Nat) (hs : List Holiday) (file : CacheFile)
    (hvalid : codes.contains (toUpperStr arg) = true)
    (hmiss : (check_cache (toUpperStr arg) today (reset_cache_if_needed today file)).1 = none)
    (hstatus : ¬(200 ≤ status ∧ status ≤ 299)) :
    mainRun arg codes today (.response status hs) file =
      (1, reset_cache_if_needed today file,
        (check_cache (toUpperStr arg) today (reset_cache_if_needed today file)).2.2
          ++ [httpErrorMessage status]) ∧
    httpErrorMessage 400 = "Error: Bad Request." ∧
    httpErrorMessage 404 = "Error: Not Found." ∧
    httpErrorMessage 500 = "Error: Internal Server Error." ∧
    httpErrorMessage 503 = "Error: Service Unavailable." ∧
    (status ≠ 400 → status ≠ 404 → status ≠ 500 → status ≠ 503 →
      httpErrorMessage status = "Error: Unexpected HTTP status: " ++ Nat.repr status) ∧
    (∀ s t : Nat, httpStatusClass s ≠ httpStatusClass t →
      httpErrorMessage s ≠ httpErrorMessage t) := by
  refine ⟨?_, rfl, rfl, rfl, rfl, ?_, ?_⟩
  · have hmem : toUpperStr arg ∈ codes := by simpa using hvalid
    simp [mainRun, hmem, hmiss, hstatus, check_cache_file_unchanged]
  · intro h1 h2 h3 h4
    simp [httpErrorMessage, h1, h2, h3, h4]
  · intro s t hc
    unfold httpStatusClass at hc
    unfold httpErrorMessage
    split_ifs at hc ⊢ <;>
      first
        | exact absurd rfl hc
        | decide
        | exact unexpectedMessage_ne _ _ (by decide)
        | exact fun h => unexpectedMessage_ne _ _ (by decide) h.symm

/-- Concrete instance of `http_error_spec`. -/
theorem http_error_spec_witness :
    mainRun "tr" ["TR"] ⟨2024, 5, 1⟩ (.response 404 []) .absent =
      (1, reset_cache_if_needed ⟨2024, 5, 1⟩ .absent,
        (check_cache (toUpperStr "tr") ⟨2024, 5, 1⟩
            (reset_cache_if_needed ⟨2024, 5, 1⟩ .absent)).2.2 ++ [httpErrorMessage 404]) :=
  (http_error_spec "tr" ["TR"] ⟨2024, 5, 1⟩ 404 [] .absent
    (by decide) (by decide) (by decide)).1

/-- Concrete instance of `write_cache_appends`. -/
theorem write_cache_appends_witness :
    write_cache "DE" ⟨2024, 5, 1⟩ [] (.valid ⟨"2024-05-01", [⟨"TR", "2024-05-01", []⟩]⟩) =
      (.valid ⟨"2024-05-01",
          [⟨"TR", "2024-05-01", []⟩,
           ⟨"DE", NaiveDate.toString ⟨2024, 5, 1⟩, []⟩]⟩,
        ["Cache updated successfully for " ++ "DE" ++ "."]) :=
  write_cache_appends "DE" ⟨2024, 5, 1⟩ [] ⟨"2024-05-01", [⟨"TR", "2024-05-01", []⟩]⟩
    (by decide)
